import Mathlib

/-!
Verification of the GFS run-time resolver in `src/appy.py`.

A UTC instant is modelled as a number of seconds since the Unix epoch
(1970-01-01T00:00:00Z), the representation underlying Python's
`datetime.utcnow()`.  The proleptic-Gregorian calendar conversion that
`datetime` performs (and that `strftime('%Y%m%d')` renders) is embedded
as an executable function from day numbers to calendar dates.
-/

/-- Gregorian leap-year test. -/
def isLeap (y : Nat) : Bool :=
  (y % 4 == 0 && y % 100 != 0) || y % 400 == 0

/-- Number of days in Gregorian year `y`. -/
def daysInYear (y : Nat) : Nat :=
  if isLeap y then 366 else 365

/-- Lengths of the twelve months of Gregorian year `y`. -/
def monthLengths (y : Nat) : List Nat :=
  [31, if isLeap y then 29 else 28, 31, 30, 31, 30, 31, 31, 30, 31, 30, 31]

/-- Walk forward from year `y`, consuming whole years out of the day
count `d`; returns the year reached and the remaining day-of-year.
`fuel` bounds the recursion (any `fuel ≥ d` gives the fixed point,
since each step consumes at least 365 days). -/
def resolveYearAux : Nat → Nat → Nat → Nat × Nat
  | 0, y, d => (y, d)
  | fuel + 1, y, d =>
    if d < daysInYear y then (y, d) else resolveYearAux fuel (y + 1) (d - daysInYear y)

/-- Year and day-of-year (0-based) of the day that is `d` days after
1970-01-01. -/
def resolveYear (d : Nat) : Nat × Nat :=
  resolveYearAux d 1970 d

/-- Walk through the month-length list `ms`, consuming whole months out
of the 0-based day-of-year `d`; returns the (1-based) month reached and
the 1-based day-of-month. -/
def resolveMonth : List Nat → Nat → Nat → Nat × Nat
  | [], m, d => (m, d + 1)
  | L :: rest, m, d =>
    if d < L then (m, d + 1) else resolveMonth rest (m + 1) (d - L)

/-- A calendar date, as Python's `datetime.date` exposes it. -/
structure Date where
  year : Nat
  month : Nat
  day : Nat
deriving DecidableEq

/-- Calendar date of the day that is `d` days after 1970-01-01 —
the observable behaviour of Python `datetime` date extraction. -/
def dayToDate (d : Nat) : Date :=
  let yd := resolveYear d
  let md := resolveMonth (monthLengths yd.1) 1 yd.2
  ⟨yd.1, md.1, md.2⟩

/-- Two-digit zero-padded decimal rendering (`%m`, `%d`, `%H`). -/
def pad2 (n : Nat) : String :=
  if n < 10 then "0" ++ toString n else toString n

/-- Four-digit zero-padded decimal rendering (`%Y`). -/
def pad4 (n : Nat) : String :=
  if n < 10 then "000" ++ toString n
  else if n < 100 then "00" ++ toString n
  else if n < 1000 then "0" ++ toString n
  else toString n

/-- Python `now.strftime('%Y%m%d')`. -/
def strftimeYmd (d : Date) : String :=
  pad4 d.year ++ pad2 d.month ++ pad2 d.day

/-- UTC hour of the instant `s` seconds after the epoch
(Python `now.hour`). -/
def hourOf (s : Nat) : Nat :=
  s % 86400 / 3600

/-- The cycle-hour table `["00", "06", "12", "18"]` from
`src/appy.py` line 19. -/
def cycleTable : List String := ["00", "06", "12", "18"]

/-- The `ModelRun` entity of the data model: an initialization date
plus a synoptic cycle hour. -/
structure ModelRun where
  date : Date
  cycleHour : String
deriving DecidableEq

/-- Run selection from an effective (already latency-offset) instant
`e`, exactly as `src/appy.py` lines 18-19 compute it from `now`:
the date is `now.strftime('%Y%m%d')`'s underlying date and the cycle
hour is the table indexed by `now.hour // 6`. -/
def runOfEffective (e : Nat) : ModelRun :=
  { date := dayToDate (e / 86400)
    cycleHour := cycleTable.getD (hourOf e / 6) "" }

/-- The spec-level operation `resolveLatestRun(now, latency)`:
subtract the latency, then select the run from the effective instant
(`src/appy.py` line 17 with the fixed 6-hour latency generalised). -/
def resolveLatestRun (now latency : Nat) : ModelRun :=
  runOfEffective (now - latency)

/-- `get_latest_gfs_time` from `src/appy.py` lines 16-20: latency is
fixed at 6 hours (21600 s); the result is the pair
`(now.strftime('%Y%m%d'), ["00","06","12","18"][now.hour // 6])`
for the offset instant. -/
def get_latest_gfs_time (nowSec : Nat) : String × String :=
  let run := resolveLatestRun nowSec 21600
  (strftimeYmd run.date, run.cycleHour)

/-- The URL template of `load_dataset` (`src/appy.py` line 24). -/
def load_dataset_url (run_date run_hour : String) : String :=
  "https://nomads.ncep.noaa.gov/dods/gfs_0p25_1hr/gfs" ++ run_date ++
    "/gfs_0p25_1hr_" ++ run_hour ++ "z"

/-- `formatRetrievalAddress` of the spec: render the run's date as
`YYYYMMDD` and its cycle hour into the fixed template. -/
def formatRetrievalAddress (run : ModelRun) : String :=
  load_dataset_url (strftimeYmd run.date) run.cycleHour

/-- The spec's half-open partition of the day into four 6-hour
windows, written exactly as §4.1 states it. -/
def specCycleHour (h : Nat) : String :=
  if h < 6 then "00" else if h < 12 then "06" else if h < 18 then "12" else "18"

/-- The arithmetic rendering of the cycle hour: the largest multiple
of 6 not exceeding the hour, zero-padded to two digits. -/
def arithCycleHour (h : Nat) : String :=
  pad2 (6 * (h / 6))

/-- The run-initialization instant (seconds since epoch) named by the
output of `get_latest_gfs_time`: midnight of the effective day plus
the selected cycle hour. -/
def runInitSec (now : Nat) : Nat :=
  ((now - 21600) / 86400) * 86400 + ((now - 21600) % 86400 / 3600 / 6) * 21600

/-- Strict lexicographic order on calendar dates. -/
def dateLT (a b : Date) : Prop :=
  a.year < b.year ∨
    (a.year = b.year ∧ (a.month < b.month ∨ (a.month = b.month ∧ a.day < b.day)))

/-- Lexicographic order on model runs: by date, then by the cycle-hour
string (character-wise). -/
def runLE (a b : ModelRun) : Prop :=
  dateLT a.date b.date ∨
    (a.date = b.date ∧ (a.cycleHour.data < b.cycleHour.data ∨ a.cycleHour = b.cycleHour))

/-- Strict lexicographic order on pairs of naturals (used for the
intermediate month/day and year/day-of-year stages). -/
def pairLT (a b : Nat × Nat) : Prop :=
  a.1 < b.1 ∨ (a.1 = b.1 ∧ a.2 < b.2)

/- Basic bounds. -/

theorem hourOf_lt (s : Nat) : hourOf s < 24 := by
  unfold hourOf
  omega

theorem daysInYear_ge (y : Nat) : 365 ≤ daysInYear y := by
  unfold daysInYear
  split <;> omega

theorem cycleTable_getD_spec : ∀ h, h < 24 → cycleTable.getD (h / 6) "" = specCycleHour h := by
  decide

theorem cycleTable_getD_pad2 : ∀ h, h < 24 → cycleTable.getD (h / 6) "" = pad2 (6 * (h / 6)) := by
  decide

theorem cycleTable_getD_mem : ∀ i, i < 4 → cycleTable.getD i "" ∈ (["00", "06", "12", "18"] : List String) := by
  decide

/- Claim theorems: the directly computable ones. -/

/-- C1: `resolveLatestRun` subtracts the latency from `now`, takes the
effective instant's UTC hour, selects the cycle hour by the half-open
partition [0,6)→"00", [6,12)→"06", [12,18)→"12", [18,24)→"18", and
sets the date to the effective instant's calendar date. -/
theorem resolveLatestRun_follows_spec_partition (now latency : Nat) :
    resolveLatestRun now latency =
      ⟨dayToDate ((now - latency) / 86400), specCycleHour (hourOf (now - latency))⟩ := by
  unfold resolveLatestRun runOfEffective
  rw [cycleTable_getD_spec (hourOf (now - latency)) (hourOf_lt (now - latency))]

/-- C4: the cycle hour of every resolved run is one of exactly the
four values "00", "06", "12", "18"; equivalently the table lookup at
index (effective hour / 6) is always in bounds. -/
theorem resolveLatestRun_cycleHour_mem (now latency : Nat) :
    (resolveLatestRun now latency).cycleHour ∈ (["00", "06", "12", "18"] : List String) ∧
    hourOf (now - latency) / 6 < cycleTable.length := by
  have h24 : hourOf (now - latency) < 24 := hourOf_lt (now - latency)
  constructor
  · unfold resolveLatestRun runOfEffective
    exact cycleTable_getD_mem (hourOf (now - latency) / 6) (by omega)
  · simp only [cycleTable, List.length]
    omega

/-- C5: with a 6-hour latency, now = 2024-01-02T05:00:00Z (epoch
1704171600) resolves via effective instant 2024-01-01T23:00:00Z to
the 2024-01-01 18Z run, and now = 2024-01-02T12:30:00Z (epoch
1704198600) resolves via effective instant 2024-01-02T06:30:00Z to
the 2024-01-02 06Z run. -/
theorem resolveLatestRun_worked_examples :
    hourOf (1704171600 - 21600) = 23 ∧
    dayToDate ((1704171600 - 21600) / 86400) = ⟨2024, 1, 1⟩ ∧
    resolveLatestRun 1704171600 21600 = ⟨⟨2024, 1, 1⟩, "18"⟩ ∧
    get_latest_gfs_time 1704171600 = ("20240101", "18") ∧
    hourOf (1704198600 - 21600) = 6 ∧
    dayToDate ((1704198600 - 21600) / 86400) = ⟨2024, 1, 2⟩ ∧
    resolveLatestRun 1704198600 21600 = ⟨⟨2024, 1, 2⟩, "06"⟩ ∧
    get_latest_gfs_time 1704198600 = ("20240102", "06") := by
  decide

/-- C6: an effective hour of exactly 6, 12, or 18 selects the cycle
hour that opens that window (6 gives "06", not "00"; 12 gives "12";
18 gives "18"). -/
theorem boundary_hours_open_their_window (now latency : Nat) :
    (hourOf (now - latency) = 6 → (resolveLatestRun now latency).cycleHour = "06") ∧
    (hourOf (now - latency) = 12 → (resolveLatestRun now latency).cycleHour = "12") ∧
    (hourOf (now - latency) = 18 → (resolveLatestRun now latency).cycleHour = "18") := by
  unfold resolveLatestRun runOfEffective
  refine ⟨fun h => ?_, fun h => ?_, fun h => ?_⟩ <;> rw [h] <;> rfl

/-- Witness for C6 at concrete instants whose effective hours are
exactly 6, 12 and 18. -/
theorem boundary_hours_open_their_window_witness :
    (resolveLatestRun 43200 21600).cycleHour = "06" ∧
    (resolveLatestRun 64800 21600).cycleHour = "12" ∧
    (resolveLatestRun 86400 21600).cycleHour = "18" :=
  ⟨(boundary_hours_open_their_window 43200 21600).1 (by decide),
   (boundary_hours_open_their_window 64800 21600).2.1 (by decide),
   (boundary_hours_open_their_window 86400 21600).2.2 (by decide)⟩

/-- C8: the resolver is a pure, deterministic, total function of `now`
and `latency`: equal inputs give equal outputs, and the only fallible
step, the table lookup, is always in bounds. -/
theorem resolveLatestRun_deterministic (now latency now2 latency2 : Nat)
    (h1 : now = now2) (h2 : latency = latency2) :
    resolveLatestRun now latency = resolveLatestRun now2 latency2 ∧
    hourOf (now - latency) / 6 < cycleTable.length := by
  subst h1
  subst h2
  refine ⟨rfl, ?_⟩
  have h24 : hourOf (now - latency) < 24 := hourOf_lt (now - latency)
  simp only [cycleTable, List.length]
  omega

/-- Witness for C8 at a concrete instant. -/
theorem resolveLatestRun_deterministic_witness :
    (1704171600 : Nat) = 1704171600 ∧ (21600 : Nat) = 21600 ∧
    (resolveLatestRun 1704171600 21600 = resolveLatestRun 1704171600 21600 ∧
     hourOf (1704171600 - 21600) / 6 < cycleTable.length) :=
  ⟨rfl, rfl, resolveLatestRun_deterministic 1704171600 21600 1704171600 21600 rfl rfl⟩

/-- C10: indexing the table ["00","06","12","18"] at (hour / 6) is
extensionally equal, for every hour in 0..23, to rendering the largest
multiple of 6 not exceeding the hour as a 2-digit zero-padded decimal
string. -/
theorem cycle_lookup_refines_arith (h : Nat) (hh : h < 24) :
    cycleTable.getD (h / 6) "" = arithCycleHour h ∧
    6 * (h / 6) ≤ h ∧
    (∀ m, m % 6 = 0 → m ≤ h → m ≤ 6 * (h / 6)) := by
  refine ⟨?_, by omega, fun m hm hmh => by omega⟩
  unfold arithCycleHour
  exact cycleTable_getD_pad2 h hh

/-- Witness for C10 at hour 13 (largest multiple of 6 below 13 is 12). -/
theorem cycle_lookup_refines_arith_witness :
    (13 : Nat) < 24 ∧
    (cycleTable.getD (13 / 6) "" = arithCycleHour 13 ∧
     6 * (13 / 6) ≤ 13 ∧
     (∀ m, m % 6 = 0 → m ≤ 13 → m ≤ 6 * (13 / 6))) :=
  ⟨by decide, cycle_lookup_refines_arith 13 (by decide)⟩

/-- C3: `formatRetrievalAddress` on the run (2024-01-02, "06") yields
the fixed-template address: the fixed host and path prefix, a path
segment containing the 8-digit run date 20240102, and a final segment
ending in _06z; repeated calls on equal inputs return the identical
string. -/
theorem formatRetrievalAddress_template :
    formatRetrievalAddress ⟨⟨2024, 1, 2⟩, "06"⟩ =
      "https://nomads.ncep.noaa.gov/dods/gfs_0p25_1hr/" ++ "gfs20240102" ++ "/" ++
        "gfs_0p25_1hr_06z" ∧
    (∃ p q, formatRetrievalAddress ⟨⟨2024, 1, 2⟩, "06"⟩ = p ++ "20240102" ++ q) ∧
    (∃ p, formatRetrievalAddress ⟨⟨2024, 1, 2⟩, "06"⟩ = p ++ "_06z") ∧
    (∀ run : ModelRun, formatRetrievalAddress run = formatRetrievalAddress run) := by
  refine ⟨by decide, ?_, ?_, fun _ => rfl⟩
  · exact ⟨"https://nomads.ncep.noaa.gov/dods/gfs_0p25_1hr/gfs", "/gfs_0p25_1hr_06z", by decide⟩
  · exact ⟨"https://nomads.ncep.noaa.gov/dods/gfs_0p25_1hr/gfs20240102/gfs_0p25_1hr", by decide⟩

/- Calendar arithmetic: one-step unfoldings. -/

theorem resolveYearAux_succ_fuel (fuel y d : Nat) :
    resolveYearAux (fuel + 1) y d =
      if d < daysInYear y then (y, d) else resolveYearAux fuel (y + 1) (d - daysInYear y) := rfl

theorem resolveMonth_nil (m d : Nat) : resolveMonth [] m d = (m, d + 1) := rfl

theorem resolveMonth_cons (L : Nat) (rest : List Nat) (m d : Nat) :
    resolveMonth (L :: rest) m d =
      if d < L then (m, d + 1) else resolveMonth rest (m + 1) (d - L) := rfl

theorem dayToDate_eq (d : Nat) :
    dayToDate d = ⟨(resolveYear d).1,
      (resolveMonth (monthLengths (resolveYear d).1) 1 (resolveYear d).2).1,
      (resolveMonth (monthLengths (resolveYear d).1) 1 (resolveYear d).2).2⟩ := rfl

/- The fuel in `resolveYearAux` is irrelevant once it dominates `d`. -/

theorem resolveYearAux_zero_d (fuel y : Nat) : resolveYearAux fuel y 0 = (y, 0) := by
  cases fuel with
  | zero => rfl
  | succ n =>
    rw [resolveYearAux_succ_fuel]
    rw [if_pos (show (0 : Nat) < daysInYear y by have := daysInYear_ge y; omega)]

theorem resolveYearAux_fuel_succ (fuel y d : Nat) (h : d ≤ fuel) :
    resolveYearAux (fuel + 1) y d = resolveYearAux fuel y d := by
  induction fuel generalizing y d with
  | zero =>
    have hd : d = 0 := by omega
    subst hd
    rw [resolveYearAux_zero_d, resolveYearAux_zero_d]
  | succ n ih =>
    rw [resolveYearAux_succ_fuel (n + 1) y d, resolveYearAux_succ_fuel n y d]
    by_cases hd : d < daysInYear y
    · rw [if_pos hd, if_pos hd]
    · rw [if_neg hd, if_neg hd]
      have hL := daysInYear_ge y
      exact ih (y + 1) (d - daysInYear y) (by omega)

/- Incrementing the day count by one advances the (year, day-of-year)
pair by one day. -/

theorem resolveYearAux_succ_d (fuel y d : Nat) (h : d < fuel) :
    resolveYearAux fuel y (d + 1) =
      if (resolveYearAux fuel y d).2 + 1 < daysInYear (resolveYearAux fuel y d).1
      then ((resolveYearAux fuel y d).1, (resolveYearAux fuel y d).2 + 1)
      else ((resolveYearAux fuel y d).1 + 1, 0) := by
  induction fuel generalizing y d with
  | zero => omega
  | succ n ih =>
    rw [resolveYearAux_succ_fuel n y (d + 1), resolveYearAux_succ_fuel n y d]
    by_cases h2 : d < daysInYear y
    · rw [if_pos h2]
      dsimp only
      by_cases h1 : d + 1 < daysInYear y
      · rw [if_pos h1, if_pos h1]
      · rw [if_neg h1, if_neg h1]
        have he : d + 1 - daysInYear y = 0 := by omega
        rw [he, resolveYearAux_zero_d]
    · have hL := daysInYear_ge y
      have h1 : ¬(d + 1 < daysInYear y) := by omega
      rw [if_neg h2, if_neg h1]
      have he : d + 1 - daysInYear y = (d - daysInYear y) + 1 := by omega
      rw [he]
      exact ih (y + 1) (d - daysInYear y) (by omega)

theorem resolveYear_succ (d : Nat) :
    resolveYear (d + 1) =
      if (resolveYear d).2 + 1 < daysInYear (resolveYear d).1
      then ((resolveYear d).1, (resolveYear d).2 + 1)
      else ((resolveYear d).1 + 1, 0) := by
  unfold resolveYear
  rw [resolveYearAux_succ_d (d + 1) 1970 d (Nat.lt_succ_self d),
    resolveYearAux_fuel_succ d 1970 d (Nat.le_refl d)]

/- The month stage is strictly monotone in the day-of-year. -/

theorem resolveMonth_fst_ge (ms : List Nat) (m d : Nat) : m ≤ (resolveMonth ms m d).1 := by
  induction ms generalizing m d with
  | nil => exact Nat.le_refl m
  | cons L rest ih =>
    rw [resolveMonth_cons]
    by_cases hd : d < L
    · rw [if_pos hd]
    · rw [if_neg hd]
      exact Nat.le_trans (Nat.le_succ m) (ih (m + 1) (d - L))

theorem resolveMonth_succ_d (ms : List Nat) (m d : Nat) :
    pairLT (resolveMonth ms m d) (resolveMonth ms m (d + 1)) := by
  induction ms generalizing m d with
  | nil =>
    rw [resolveMonth_nil, resolveMonth_nil]
    unfold pairLT
    dsimp only
    omega
  | cons L rest ih =>
    rw [resolveMonth_cons, resolveMonth_cons]
    by_cases h1 : d + 1 < L
    · have h2 : d < L := by omega
      rw [if_pos h2, if_pos h1]
      unfold pairLT
      dsimp only
      omega
    · by_cases h2 : d < L
      · rw [if_pos h2, if_neg h1]
        exact Or.inl (Nat.lt_of_lt_of_le (Nat.lt_succ_self m)
          (resolveMonth_fst_ge rest (m + 1) (d + 1 - L)))
      · rw [if_neg h2, if_neg h1]
        have he : d + 1 - L = (d - L) + 1 := by omega
        rw [he]
        exact ih (m + 1) (d - L)

/- Day-number order carries over to lexicographic date order. -/

theorem dateLT_trans (a b c : Date) (h1 : dateLT a b) (h2 : dateLT b c) : dateLT a c := by
  unfold dateLT at h1 h2 ⊢
  omega

theorem dayToDate_succ_lt (d : Nat) : dateLT (dayToDate d) (dayToDate (d + 1)) := by
  rw [dayToDate_eq, dayToDate_eq, resolveYear_succ d]
  by_cases h1 : (resolveYear d).2 + 1 < daysInYear (resolveYear d).1
  · rw [if_pos h1]
    have hm := resolveMonth_succ_d (monthLengths (resolveYear d).1) 1 (resolveYear d).2
    unfold pairLT at hm
    unfold dateLT
    dsimp only
    exact Or.inr ⟨rfl, hm⟩
  · rw [if_neg h1]
    unfold dateLT
    dsimp only
    omega

theorem dayToDate_lt (d e : Nat) (h : d < e) : dateLT (dayToDate d) (dayToDate e) := by
  induction e with
  | zero => omega
  | succ n ih =>
    by_cases h2 : d < n
    · exact dateLT_trans _ _ _ (ih h2) (dayToDate_succ_lt n)
    · have hd : d = n := by omega
      subst hd
      exact dayToDate_succ_lt d

/- Run selection is monotone in the effective instant. -/

theorem runOfEffective_mono (e f : Nat) (h : e ≤ f) :
    runLE (runOfEffective e) (runOfEffective f) := by
  by_cases hd : e / 86400 < f / 86400
  · exact Or.inl (dayToDate_lt _ _ hd)
  · have hday : e / 86400 = f / 86400 := by omega
    refine Or.inr ⟨?_, ?_⟩
    · show dayToDate (e / 86400) = dayToDate (f / 86400)
      rw [hday]
    · have hs : hourOf e / 6 ≤ hourOf f / 6 := by
        unfold hourOf
        omega
      have hb : hourOf f / 6 < 4 := by
        have := hourOf_lt f
        omega
      have key : ∀ j, j < 4 → ∀ i, i ≤ j →
          (cycleTable.getD i "").data < (cycleTable.getD j "").data ∨
            cycleTable.getD i "" = cycleTable.getD j "" := by decide
      exact key _ hb _ hs

/-- C7: for a fixed latency, advancing `now` by 6 hours (21600 s)
never decreases the resolved run in the lexicographic order on
(date, cycleHour). -/
theorem advancing_six_hours_monotone (now latency : Nat) :
    runLE (resolveLatestRun now latency) (resolveLatestRun (now + 21600) latency) := by
  unfold resolveLatestRun
  exact runOfEffective_mono (now - latency) (now + 21600 - latency) (by omega)

/-- C2: the date of the resolved run is the calendar date of the
effective (latency-subtracted) instant, never of the original `now`;
when the subtraction crosses midnight the returned date is exactly the
previous calendar day. -/
theorem date_follows_effective_instant (now latency : Nat)
    (h1 : latency ≤ now) (h2 : latency < 86400) :
    (resolveLatestRun now latency).date = dayToDate ((now - latency) / 86400) ∧
    ((now - latency) / 86400 ≠ now / 86400 →
      now / 86400 = (now - latency) / 86400 + 1 ∧
      (resolveLatestRun now latency).date = dayToDate (now / 86400 - 1)) := by
  refine ⟨rfl, fun hne => ?_⟩
  have hday : now / 86400 = (now - latency) / 86400 + 1 := by omega
  refine ⟨hday, ?_⟩
  show dayToDate ((now - latency) / 86400) = dayToDate (now / 86400 - 1)
  have he : now / 86400 - 1 = (now - latency) / 86400 := by omega
  rw [he]

/-- Witness for C2: now = 2024-01-02T05:00:00Z with a 6-hour latency
crosses midnight back to 2024-01-01. -/
theorem date_follows_effective_instant_witness :
    (21600 : Nat) ≤ 1704171600 ∧ (21600 : Nat) < 86400 ∧
    ((resolveLatestRun 1704171600 21600).date = dayToDate ((1704171600 - 21600) / 86400) ∧
     ((1704171600 - 21600) / 86400 ≠ 1704171600 / 86400 →
       1704171600 / 86400 = (1704171600 - 21600) / 86400 + 1 ∧
       (resolveLatestRun 1704171600 21600).date = dayToDate (1704171600 / 86400 - 1))) :=
  ⟨by decide, by decide,
   date_follows_effective_instant 1704171600 21600 (by decide) (by decide)⟩

/-- C9: with the code's fixed 6-hour latency, the initialization
instant named by the returned run (its date rendered by the returned
date string, at the returned cycle hour) lies at least 6 hours and
less than 12 hours before `now`. -/
theorem selected_run_age_bounds (now : Nat) (h : 21600 ≤ now) :
    (get_latest_gfs_time now).1 = strftimeYmd (dayToDate (runInitSec now / 86400)) ∧
    (get_latest_gfs_time now).2 = pad2 (hourOf (runInitSec now)) ∧
    runInitSec now + 21600 ≤ now ∧
    now < runInitSec now + 43200 := by
  have hq : runInitSec now / 86400 = (now - 21600) / 86400 := by
    unfold runInitSec
    omega
  have hh : hourOf (runInitSec now) = 6 * (hourOf (now - 21600) / 6) := by
    unfold runInitSec hourOf
    omega
  refine ⟨?_, ?_, ?_, ?_⟩
  · rw [hq]
    rfl
  · rw [hh]
    show cycleTable.getD (hourOf (now - 21600) / 6) "" = pad2 (6 * (hourOf (now - 21600) / 6))
    exact cycleTable_getD_pad2 (hourOf (now - 21600)) (hourOf_lt (now - 21600))
  · unfold runInitSec
    unfold hourOf at *
    omega
  · unfold runInitSec
    unfold hourOf at *
    omega

/-- Witness for C9 at now = 2024-01-02T05:00:00Z. -/
theorem selected_run_age_bounds_witness :
    (21600 : Nat) ≤ 1704171600 ∧
    ((get_latest_gfs_time 1704171600).1 = strftimeYmd (dayToDate (runInitSec 1704171600 / 86400)) ∧
     (get_latest_gfs_time 1704171600).2 = pad2 (hourOf (runInitSec 1704171600)) ∧
     runInitSec 1704171600 + 21600 ≤ 1704171600 ∧
     1704171600 < runInitSec 1704171600 + 43200) :=
  ⟨by decide, selected_run_age_bounds 1704171600 (by decide)⟩
